import Mathlib

/-!
# Verification of the quantized-bitnet generation driver

Shallow embedding of `candle-examples/examples/quantized-bitnet/main.rs`:
the per-turn generation driver (prompt templating, context-window
truncation, sampling configuration, prompt processing, the generating
loop with repeat penalty and stop detection, and chat-history
accumulation), together with theorems settling the specification claims.

Conventions:
* tokens are `Nat` (the code uses `u32` indices; no arithmetic is done on
  them, only equality and list operations, so no wraparound is involved);
* logits are `List ℚ` (the code uses `f32` tensors; the claims settled
  here do not depend on floating-point rounding);
* the model forward collaborator is an oracle `List Token → Logits`
  giving the next-token logits after the model has consumed the given
  token sequence (the code's KV-cached `model.forward(input, pos)` calls
  are translated by tracking the full sequence fed so far);
* the softmax exponential is a function parameter `e : ℚ → ℚ` since the
  claims settled here never depend on its concrete values.
-/

namespace QuantizedBitnet

abbrev Token := Nat

abbrev Logits := List ℚ

abbrev RngState := Nat

/-- Modelled from the spec: the sampling-mode set of §3 / §4.3
(`candle_transformers::generation::Sampling` is outside `src/`);
constructor names follow the call sites in `main.rs` lines 350-358. -/
inductive Sampling where
  | ArgMax : Sampling
  | All (temperature : ℚ) : Sampling
  | TopK (k : Nat) (temperature : ℚ) : Sampling
  | TopP (p : ℚ) (temperature : ℚ) : Sampling
  | TopKThenTopP (k : Nat) (p : ℚ) (temperature : ℚ) : Sampling
  deriving DecidableEq

/-- Index of the maximum logit, ties broken by lowest index
(spec §4.3 "Greedy: index of maximum value, deterministic, ties broken
by lowest index"); auxiliary accumulator walk. -/
def argmaxAux : List ℚ → Nat → Nat → ℚ → Nat
  | [], _, bi, _ => bi
  | x :: xs, i, bi, bv =>
    if bv < x then argmaxAux xs (i + 1) i x else argmaxAux xs (i + 1) bi bv

/-- Index of the maximum logit, ties broken by lowest index. -/
def argmaxIdx : Logits → Nat
  | [] => 0
  | x :: xs => argmaxAux xs 1 0 x

/-- Modelled from the spec: §4.3 only fixes that the generator is seeded
once at run start and advances deterministically (`rand::StdRng` is
outside `src/`); a concrete linear congruential generator stands in. -/
def rngNext (s : RngState) : RngState :=
  (s * 1103515245 + 12345) % 2147483648

/-- Modelled from the spec: the uniform variate in `[0, 1)` drawn from
the generator state for a categorical sample. -/
def rngUnit (s : RngState) : ℚ :=
  (s : ℚ) / 2147483648

/-- Inverse-CDF pick from a probability list: smallest index whose
cumulative probability exceeds the variate (walked by subtraction). -/
def catPick : List ℚ → ℚ → Nat → Nat
  | [], _, i => i
  | p :: ps, u, i => if u < p then i else catPick ps (u - p) (i + 1)

/-- Draw from a categorical distribution given a uniform variate. -/
def categorical (probs : List ℚ) (u : ℚ) : Nat :=
  catPick probs u 0

/-- Maximum of a logits vector (0 for the empty vector). -/
def maxLogit : Logits → ℚ
  | [] => 0
  | x :: xs => xs.foldl max x

/-- Modelled from the spec: §4.3 stable softmax — subtract the maximum,
divide by the temperature, exponentiate (via the parameter `e`), and
normalize. -/
def softmaxProbs (e : ℚ → ℚ) (temp : ℚ) (logits : Logits) : List ℚ :=
  let m := maxLogit logits
  let ws := logits.map (fun l => e ((l - m) / temp))
  let z := ws.sum
  ws.map (fun w => w / z)

/-- Smallest index of a maximal logit among indices not yet chosen. -/
def argmaxNotInAux : List ℚ → Nat → List Nat → Option (Nat × ℚ) → Option (Nat × ℚ)
  | [], _, _, best => best
  | x :: xs, i, ex, best =>
    let best' :=
      if ex.contains i then best
      else
        match best with
        | none => some (i, x)
        | some (bi, bv) => if bv < x then some (i, x) else some (bi, bv)
    argmaxNotInAux xs (i + 1) ex best'

/-- Smallest index of a maximal logit outside the excluded set. -/
def argmaxNotIn (logits : Logits) (ex : List Nat) : Option Nat :=
  (argmaxNotInAux logits 0 ex none).map (fun b => b.1)

/-- Select indices in descending logit order (ties by lowest index). -/
def selectTop : Nat → Logits → List Nat → List Nat
  | 0, _, chosen => chosen
  | k + 1, logits, chosen =>
    match argmaxNotIn logits chosen with
    | none => chosen
    | some i => selectTop k logits (chosen ++ [i])

/-- The `k` highest-scoring indices, in descending score order. -/
def topKIndices (k : Nat) (logits : Logits) : List Nat :=
  selectTop k logits []

/-- Modelled from the spec: §4.3 Top-K — restrict candidates to the `k`
highest-scoring indices, then temperature-softmax sample among them. -/
def sampleTopK (e : ℚ → ℚ) (k : Nat) (temp : ℚ) (logits : Logits) (u : ℚ) : Nat :=
  let idxs := topKIndices k logits
  let sub := idxs.map (fun i => logits.getD i 0)
  idxs.getD (categorical (softmaxProbs e temp sub) u) 0

/-- Keep indices (given in descending probability order) forming the
smallest prefix whose cumulative probability reaches `p`. -/
def keepByMass : List Nat → List ℚ → ℚ → List Nat
  | [], _, _ => []
  | i :: is, probs, p =>
    let q := probs.getD i 0
    if p ≤ q then [i] else i :: keepByMass is probs (p - q)

/-- Modelled from the spec: §4.3 Top-P — temperature-softmax, order
descending (by logit, which orders probabilities for a monotone
exponential), keep the smallest prefix of cumulative mass ≥ `p`,
renormalize, sample. -/
def sampleTopP (e : ℚ → ℚ) (p temp : ℚ) (logits : Logits) (u : ℚ) : Nat :=
  let probs := softmaxProbs e temp logits
  let order := topKIndices logits.length logits
  let kept := keepByMass order probs p
  let keptProbs := kept.map (fun i => probs.getD i 0)
  let z := keptProbs.sum
  kept.getD (categorical (keptProbs.map (fun q => q / z)) u) 0

/-- Modelled from the spec: §4.3 Top-K-then-Top-P — apply the Top-K
restriction first, then Top-P filtering within the restricted set. -/
def sampleTopKThenTopP (e : ℚ → ℚ) (k : Nat) (p temp : ℚ) (logits : Logits) (u : ℚ) : Nat :=
  let idxs := topKIndices k logits
  let sub := idxs.map (fun i => logits.getD i 0)
  idxs.getD (sampleTopP e p temp sub u) 0

/-- Modelled from the spec: §4.3 `LogitsProcessor::sample` (outside
`src/`). Greedy is a deterministic argmax that does not touch the
generator; every stochastic mode advances the generator by one draw and
picks from its (filtered) distribution. -/
def sample (e : ℚ → ℚ) (cfg : Sampling) (s : RngState) (logits : Logits) : Token × RngState :=
  match cfg with
  | .ArgMax => (argmaxIdx logits, s)
  | .All temp =>
    let s' := rngNext s
    (categorical (softmaxProbs e temp logits) (rngUnit s'), s')
  | .TopK k temp =>
    let s' := rngNext s
    (sampleTopK e k temp logits (rngUnit s'), s')
  | .TopP p temp =>
    let s' := rngNext s
    (sampleTopP e p temp logits (rngUnit s'), s')
  | .TopKThenTopP k p temp =>
    let s' := rngNext s
    (sampleTopKThenTopP e k p temp logits (rngUnit s'), s')

/-- Sampling-mode selection from the CLI configuration
(`main.rs` lines 348-361): `temperature <= 0.` is greedy, otherwise the
mode is chosen from the optional `top_k` / `top_p` pair. -/
def buildSampling (temperature : ℚ) (top_k : Option Nat) (top_p : Option ℚ) : Sampling :=
  if temperature ≤ 0 then .ArgMax
  else
    match top_k, top_p with
    | none, none => .All temperature
    | some k, none => .TopK k temperature
    | none, some p => .TopP p temperature
    | some k, some p => .TopKThenTopP k p temperature

/-- Context-window truncation (`main.rs` lines 341-346): when
`len + to_sample` exceeds `maxSeqLen - 10` the code computes `to_remove`
and keeps the slice `[len.saturating_sub(to_remove)..]`; `usize`
saturating subtraction is `Nat` subtraction. `maxSeqLen` stands for the
constant `model::MAX_SEQ_LEN` of the external model module. -/
def truncatePrompt (maxSeqLen toSample : Nat) (promptTokens : List Token) : List Token :=
  if promptTokens.length + toSample > maxSeqLen - 10 then
    let toRemove := promptTokens.length + toSample + 10 - maxSeqLen
    promptTokens.drop (promptTokens.length - toRemove)
  else promptTokens

/-- The error taxonomy named by the spec (§7); stated here only to be
compared with what the code actually does. -/
inductive SpecError where
  | InvalidSampling : SpecError
  | ContextOverflow : SpecError
  | UnknownEosToken : SpecError
  | DecodeInconsistency : SpecError
  deriving DecidableEq

/-- The context-window step as it sits inside the driver's fallible
(`anyhow::Result`) pipeline: `main.rs` lines 339-346 construct no error
whatsoever, so the step always succeeds with the truncated sequence. -/
def contextWindowStep (maxSeqLen toSample : Nat) (l : List Token) :
    Except SpecError (List Token) :=
  Except.ok (truncatePrompt maxSeqLen toSample l)

/-- The model-family tag (`enum Which`, `main.rs` lines 29-41). -/
inductive Which where
  | Falcon3_1b1_58 : Which
  | Falcon3_3b1_58 : Which
  | Falcon3_7b1_58 : Which
  | Falcon3_10b1_58 : Which
  | Llama3_8b1_58 : Which
  deriving DecidableEq

/-- `Which::is_falcon` (`main.rs` lines 44-46). -/
def Which.is_falcon : Which → Bool
  | .Falcon3_1b1_58 | .Falcon3_3b1_58 | .Falcon3_7b1_58 | .Falcon3_10b1_58 => true
  | _ => false

/-- `Which::is_llama` (`main.rs` lines 48-50). -/
def Which.is_llama : Which → Bool
  | .Llama3_8b1_58 => true
  | _ => false

/-- The per-family end-of-sequence marker string
(`main.rs` lines 386-389). -/
def eosMarker : Which → String
  | .Falcon3_10b1_58 | .Falcon3_7b1_58 | .Falcon3_3b1_58 | .Falcon3_1b1_58 => "<|endoftext|>"
  | .Llama3_8b1_58 => "<|eot_id|>"

/-- The tokenizer vocabulary collaborator, modelled as an association
list; `get_vocab(true).get(s)` is a key lookup. -/
def lookupVocab (vocab : List (String × Token)) (s : String) : Option Token :=
  (vocab.find? (fun kv => kv.1 == s)).map (fun kv => kv.2)

/-- Outcome of one driver step, distinguishing a value, an error value
surfaced through the `anyhow::Result` channel, and a panic (a Rust
panic aborts the process; no error value reaches the caller). -/
inductive StepOutcome (α : Type) where
  | ok (a : α) : StepOutcome α
  | err (e : SpecError) : StepOutcome α
  | panicked : StepOutcome α
  deriving DecidableEq

/-- Resolution of the end-of-sequence token (`main.rs` line 391):
`tos.tokenizer().get_vocab(true).get(eos_token).unwrap()` — the
`.unwrap()` on a missing key panics rather than returning an error. -/
def resolveEosStep (vocab : List (String × Token)) (w : Which) : StepOutcome Token :=
  match lookupVocab vocab (eosMarker w) with
  | some t => .ok t
  | none => .panicked

/-- The three interaction modes (`enum Prompt`, `main.rs` lines 22-27);
the one-shot text itself is irrelevant to templating and elided. -/
inductive PromptMode where
  | one : PromptMode
  | interactive : PromptMode
  | chat : PromptMode
  deriving DecidableEq

/-- The Falcon-family chat template (`main.rs` lines 295 and 317). -/
def falconWrap (text : String) : String :=
  "<|user|>\n" ++ text ++ "\n<|assistant|>"

/-- The Llama-family chat template used in interactive/chat mode
(`main.rs` line 320). -/
def llamaChatWrap (text : String) : String :=
  "<|start_header_id|>user<|end_header_id|>\n\n" ++ text ++
    "\n<|eot_id|><|start_header_id|>assistant<|end_header_id|>"

/-- Prompt templating (`main.rs` lines 292-326): the `Prompt::One` arm
renders a Llama prompt as the raw text (`format!("{prompt}")`), while
the `Interactive`/`Chat` arm renders the Llama chat template; Falcon
gets the same fixed wrap in every arm, and an unmapped family falls
back to the raw text. -/
def renderPrompt (m : PromptMode) (w : Which) (text : String) : String :=
  match m with
  | .one =>
    if w.is_falcon then falconWrap text
    else if w.is_llama then text
    else text
  | .interactive | .chat =>
    if w.is_falcon then falconWrap text
    else if w.is_llama then llamaChatWrap text
    else text

/-- Modelled from the spec: §4.4
(`candle_transformers::utils::apply_repeat_penalty` is outside `src/`)
— for every index present in the trailing window, divide a nonnegative
logit by the factor and multiply a negative one by it, once per
distinct token (membership is by token identity). -/
def applyRepeatPenalty (penalty : ℚ) (logits : Logits) (window : List Token) : Logits :=
  logits.mapIdx (fun i l =>
    if window.contains i then (if 0 ≤ l then l / penalty else l * penalty) else l)

/-- The repeat-penalty step of the generating loop
(`main.rs` lines 399-408): factor exactly 1 short-circuits to the raw
logits, otherwise the penalty is applied over the trailing
`repeat_last_n` window of the token history. -/
def penaltyStep (penalty : ℚ) (logits : Logits) (allTokens : List Token)
    (repeatLastN : Nat) : Logits :=
  if penalty = 1 then logits
  else applyRepeatPenalty penalty logits (allTokens.drop (allTokens.length - repeatLastN))

/-- The split-prompt loop (`main.rs` lines 370-377): one forward call
and one `sample` per prompt token, starting from `next_token = 0`;
`consumed` tracks the tokens already fed to the KV-cached model. -/
def splitPromptLoop (e : ℚ → ℚ) (cfg : Sampling) (oracle : List Token → Logits) :
    List Token → List Token → Token → RngState → Token × RngState
  | [], _, next, s => (next, s)
  | t :: ts, consumed, _, s =>
    let fed := consumed ++ [t]
    let tr := sample e cfg s (oracle fed)
    splitPromptLoop e cfg oracle ts fed tr.1 tr.2

/-- The prompt-processing phase (`main.rs` lines 364-378): one batched
forward call over the whole prompt, or the split loop, producing the
first sampled token and the generator state it leaves behind. -/
def promptPhase (e : ℚ → ℚ) (cfg : Sampling) (oracle : List Token → Logits)
    (splitPrompt : Bool) (seed : RngState) (prompt : List Token) : Token × RngState :=
  if splitPrompt then splitPromptLoop e cfg oracle prompt [] 0 seed
  else sample e cfg seed (oracle prompt)

/-- One step of the generating loop (`main.rs` lines 396-409): forward
on the last sampled token (the oracle sees `prompt ++ allTokens`), the
repeat-penalty step, then one sample. -/
def genStepTok (e : ℚ → ℚ) (cfg : Sampling) (penalty : ℚ) (rln : Nat)
    (oracle : List Token → Logits) (prompt : List Token)
    (allTokens : List Token) (rng : RngState) : Token × RngState :=
  sample e cfg rng (penaltyStep penalty (oracle (prompt ++ allTokens)) allTokens rln)

/-- The generating loop (`main.rs` lines 395-419): up to `fuel` steps,
appending each sampled token to the history and breaking after a token
equal to `eos` has been appended. -/
def genLoop (e : ℚ → ℚ) (cfg : Sampling) (penalty : ℚ) (rln : Nat) (eos : Token)
    (oracle : List Token → Logits) (prompt : List Token) :
    Nat → List Token → RngState → List Token
  | 0, a, _ => a
  | fuel + 1, a, rng =>
    let tr := genStepTok e cfg penalty rln oracle prompt a rng
    let a' := a ++ [tr.1]
    if tr.1 = eos then a' else genLoop e cfg penalty rln eos oracle prompt fuel a' tr.2

/-- The state (history, generator) of the generating loop after `i`
steps when no stop condition is applied; used to talk about "the token
forced on the `n`-th generated step". -/
def genStateAt (e : ℚ → ℚ) (cfg : Sampling) (penalty : ℚ) (rln : Nat)
    (oracle : List Token → Logits) (prompt : List Token)
    (a0 : List Token) (r0 : RngState) : Nat → List Token × RngState
  | 0 => (a0, r0)
  | i + 1 =>
    let st := genStateAt e cfg penalty rln oracle prompt a0 r0 i
    let tr := genStepTok e cfg penalty rln oracle prompt st.1 st.2
    (st.1 ++ [tr.1], tr.2)

/-- The token the loop dynamics produce on step `i` (0-indexed). -/
def tokAt (e : ℚ → ℚ) (cfg : Sampling) (penalty : ℚ) (rln : Nat)
    (oracle : List Token → Logits) (prompt : List Token)
    (a0 : List Token) (r0 : RngState) (i : Nat) : Token :=
  (genStepTok e cfg penalty rln oracle prompt
    (genStateAt e cfg penalty rln oracle prompt a0 r0 i).1
    (genStateAt e cfg penalty rln oracle prompt a0 r0 i).2).1

/-- The per-run configuration read from the CLI (`struct Args`). -/
structure GenParams where
  seed : Nat
  temperature : ℚ
  top_k : Option Nat
  top_p : Option ℚ
  repeat_penalty : ℚ
  repeat_last_n : Nat
  sample_len : Nat
  split_prompt : Bool
  maxSeqLen : Nat

/-- What one turn of the driver leaves behind: the (possibly truncated)
prompt token sequence actually fed to the model, and `all_tokens`, the
sampled tokens (first sampled token plus the generated ones). -/
structure TurnOut where
  promptTokens : List Token
  allTokens : List Token
  deriving DecidableEq

/-- One driver turn (`main.rs` lines 339-419): concatenation with the
pre-prompt history, context-window truncation, sampling-mode selection,
prompt processing, then the generating loop with budget
`sample_len.saturating_sub(1)`. -/
def runTurn (e : ℚ → ℚ) (P : GenParams) (eos : Token) (oracle : List Token → Logits)
    (history encoded : List Token) : TurnOut :=
  let promptTokens := truncatePrompt P.maxSeqLen (P.sample_len - 1) (history ++ encoded)
  let cfg := buildSampling P.temperature P.top_k P.top_p
  let pp := promptPhase e cfg oracle P.split_prompt P.seed promptTokens
  let allTokens := genLoop e cfg P.repeat_penalty P.repeat_last_n eos oracle promptTokens
    (P.sample_len - 1) [pp.1] pp.2
  ⟨promptTokens, allTokens⟩

/-- End-of-turn history update (`main.rs` lines 435-441): chat mode
replaces the pre-prompt history with `prompt_tokens ++ all_tokens`; the
other modes leave it untouched (it stays empty). -/
def nextPrePrompt (m : PromptMode) (old : List Token) (out : TurnOut) : List Token :=
  match m with
  | .one => old
  | .interactive => old
  | .chat => out.promptTokens ++ out.allTokens

/-- The pre-prompt history after running the driver over a sequence of
encoded user inputs, starting from the empty history. -/
def historyAfter (e : ℚ → ℚ) (P : GenParams) (eos : Token)
    (oracle : List Token → Logits) (m : PromptMode)
    (encs : List (List Token)) : List Token :=
  encs.foldl (fun h enc => nextPrePrompt m h (runTurn e P eos oracle h enc)) []

/-! ## Unfolding and structural lemmas for the generating loop -/

theorem genLoop_zero (e : ℚ → ℚ) (cfg : Sampling) (penalty : ℚ) (rln : Nat) (eos : Token)
    (oracle : List Token → Logits) (prompt : List Token) (a : List Token) (r : RngState) :
    genLoop e cfg penalty rln eos oracle prompt 0 a r = a := rfl

theorem genLoop_succ (e : ℚ → ℚ) (cfg : Sampling) (penalty : ℚ) (rln : Nat) (eos : Token)
    (oracle : List Token → Logits) (prompt : List Token) (fuel : Nat)
    (a : List Token) (r : RngState) :
    genLoop e cfg penalty rln eos oracle prompt (fuel + 1) a r =
      if (genStepTok e cfg penalty rln oracle prompt a r).1 = eos then
        a ++ [(genStepTok e cfg penalty rln oracle prompt a r).1]
      else
        genLoop e cfg penalty rln eos oracle prompt fuel
          (a ++ [(genStepTok e cfg penalty rln oracle prompt a r).1])
          (genStepTok e cfg penalty rln oracle prompt a r).2 := rfl

theorem genStateAt_zero (e : ℚ → ℚ) (cfg : Sampling) (penalty : ℚ) (rln : Nat)
    (oracle : List Token → Logits) (prompt : List Token) (a : List Token) (r : RngState) :
    genStateAt e cfg penalty rln oracle prompt a r 0 = (a, r) := rfl

theorem genStateAt_succ (e : ℚ → ℚ) (cfg : Sampling) (penalty : ℚ) (rln : Nat)
    (oracle : List Token → Logits) (prompt : List Token) (a : List Token) (r : RngState)
    (i : Nat) :
    genStateAt e cfg penalty rln oracle prompt a r (i + 1) =
      ((genStateAt e cfg penalty rln oracle prompt a r i).1 ++
        [(genStepTok e cfg penalty rln oracle prompt
            (genStateAt e cfg penalty rln oracle prompt a r i).1
            (genStateAt e cfg penalty rln oracle prompt a r i).2).1],
        (genStepTok e cfg penalty rln oracle prompt
            (genStateAt e cfg penalty rln oracle prompt a r i).1
            (genStateAt e cfg penalty rln oracle prompt a r i).2).2) := rfl

theorem tokAt_zero (e : ℚ → ℚ) (cfg : Sampling) (penalty : ℚ) (rln : Nat)
    (oracle : List Token → Logits) (prompt : List Token) (a : List Token) (r : RngState) :
    tokAt e cfg penalty rln oracle prompt a r 0 =
      (genStepTok e cfg penalty rln oracle prompt a r).1 := rfl

/-- After one step without stopping, the remaining dynamics are those of
the loop started from the advanced state. -/
theorem genStateAt_shift (e : ℚ → ℚ) (cfg : Sampling) (penalty : ℚ) (rln : Nat)
    (oracle : List Token → Logits) (prompt : List Token) (a : List Token) (r : RngState)
    (i : Nat) :
    genStateAt e cfg penalty rln oracle prompt a r (i + 1) =
      genStateAt e cfg penalty rln oracle prompt
        (a ++ [(genStepTok e cfg penalty rln oracle prompt a r).1])
        (genStepTok e cfg penalty rln oracle prompt a r).2 i := by
  induction i with
  | zero => rfl
  | succ j ih =>
    rw [genStateAt_succ e cfg penalty rln oracle prompt a r (j + 1), ih, genStateAt_succ]

theorem tokAt_shift (e : ℚ → ℚ) (cfg : Sampling) (penalty : ℚ) (rln : Nat)
    (oracle : List Token → Logits) (prompt : List Token) (a : List Token) (r : RngState)
    (i : Nat) :
    tokAt e cfg penalty rln oracle prompt a r (i + 1) =
      tokAt e cfg penalty rln oracle prompt
        (a ++ [(genStepTok e cfg penalty rln oracle prompt a r).1])
        (genStepTok e cfg penalty rln oracle prompt a r).2 i := by
  unfold tokAt
  rw [genStateAt_shift]

theorem genStateAt_length (e : ℚ → ℚ) (cfg : Sampling) (penalty : ℚ) (rln : Nat)
    (oracle : List Token → Logits) (prompt : List Token) (a : List Token) (r : RngState)
    (n : Nat) :
    ((genStateAt e cfg penalty rln oracle prompt a r n).1).length = a.length + n := by
  induction n with
  | zero => rfl
  | succ j ih =>
    rw [genStateAt_succ]
    simp only [List.length_append, List.length_cons, List.length_nil, ih]
    omega

theorem genStateAt_succ_last (e : ℚ → ℚ) (cfg : Sampling) (penalty : ℚ) (rln : Nat)
    (oracle : List Token → Logits) (prompt : List Token) (a : List Token) (r : RngState)
    (m : Nat) :
    (genStateAt e cfg penalty rln oracle prompt a r (m + 1)).1 =
      (genStateAt e cfg penalty rln oracle prompt a r m).1 ++
        [tokAt e cfg penalty rln oracle prompt a r m] := rfl

/-- The loop only ever appends: its result extends the starting history. -/
theorem genLoop_append (e : ℚ → ℚ) (cfg : Sampling) (penalty : ℚ) (rln : Nat) (eos : Token)
    (oracle : List Token → Logits) (prompt : List Token) :
    ∀ (fuel : Nat) (a : List Token) (r : RngState),
      ∃ g, genLoop e cfg penalty rln eos oracle prompt fuel a r = a ++ g := by
  intro fuel
  induction fuel with
  | zero => exact fun a r => ⟨[], (List.append_nil a).symm⟩
  | succ f ih =>
    intro a r
    rw [genLoop_succ]
    by_cases h : (genStepTok e cfg penalty rln oracle prompt a r).1 = eos
    · rw [if_pos h]
      exact ⟨[(genStepTok e cfg penalty rln oracle prompt a r).1], rfl⟩
    · rw [if_neg h]
      obtain ⟨g, hg⟩ := ih (a ++ [(genStepTok e cfg penalty rln oracle prompt a r).1])
        (genStepTok e cfg penalty rln oracle prompt a r).2
      exact ⟨[(genStepTok e cfg penalty rln oracle prompt a r).1] ++ g,
        by rw [hg, List.append_assoc]⟩

/-- A loop with at least one step of budget generates at least one token. -/
theorem genLoop_length_ge (e : ℚ → ℚ) (cfg : Sampling) (penalty : ℚ) (rln : Nat) (eos : Token)
    (oracle : List Token → Logits) (prompt : List Token) (fuel : Nat) (hf : 1 ≤ fuel)
    (a : List Token) (r : RngState) :
    a.length + 1 ≤ (genLoop e cfg penalty rln eos oracle prompt fuel a r).length := by
  obtain ⟨f, rfl⟩ : ∃ f, fuel = f + 1 := ⟨fuel - 1, by omega⟩
  rw [genLoop_succ]
  by_cases h : (genStepTok e cfg penalty rln oracle prompt a r).1 = eos
  · rw [if_pos h]
    simp
  · rw [if_neg h]
    obtain ⟨g, hg⟩ := genLoop_append e cfg penalty rln eos oracle prompt f
      (a ++ [(genStepTok e cfg penalty rln oracle prompt a r).1])
      (genStepTok e cfg penalty rln oracle prompt a r).2
    rw [hg]
    simp only [List.length_append, List.length_cons, List.length_nil]
    omega

/-- Halting characterization of the generating loop: if the loop
dynamics produce no stop token before step `n - 1` and either produce it
at step `n - 1` or `n` is the whole budget, the loop runs exactly `n`
steps and ends in the state the free dynamics reach after `n` steps. -/
theorem genLoop_halt (e : ℚ → ℚ) (cfg : Sampling) (penalty : ℚ) (rln : Nat) (eos : Token)
    (oracle : List Token → Logits) (prompt : List Token) :
    ∀ (n : Nat), 1 ≤ n → ∀ (budget : Nat) (a : List Token) (r : RngState), n ≤ budget →
      (∀ i, i < n - 1 → tokAt e cfg penalty rln oracle prompt a r i ≠ eos) →
      (tokAt e cfg penalty rln oracle prompt a r (n - 1) = eos ∨ n = budget) →
      genLoop e cfg penalty rln eos oracle prompt budget a r =
        (genStateAt e cfg penalty rln oracle prompt a r n).1 := by
  intro n
  induction n with
  | zero => omega
  | succ m ih =>
    intro _ budget a r hbudget hbefore hstop
    obtain ⟨b, rfl⟩ : ∃ b, budget = b + 1 := ⟨budget - 1, by omega⟩
    rw [genLoop_succ]
    by_cases h : (genStepTok e cfg penalty rln oracle prompt a r).1 = eos
    · rw [if_pos h]
      have hm : m = 0 := by
        by_contra hm
        exact hbefore 0 (by omega) (by rw [tokAt_zero]; exact h)
      subst hm
      rfl
    · rw [if_neg h]
      rcases m with _ | k
      · rcases hstop with hs | hs
        · rw [tokAt_zero] at hs
          exact absurd hs h
        · have hb : b = 0 := by omega
          subst hb
          rw [genLoop_zero]
          rfl
      · rw [genStateAt_shift]
        apply ih (by omega) b _ _ (by omega)
        · intro i hi
          have hi' := hbefore (i + 1) (by omega)
          rw [tokAt_shift] at hi'
          exact hi'
        · rcases hstop with hs | hs
          · left
            have : tokAt e cfg penalty rln oracle prompt a r (k + 1) = eos := by
              simpa using hs
            rw [tokAt_shift] at this
            simpa using this
          · right
            omega

/-- Under greedy sampling the split-prompt loop neither touches the
generator nor depends on it: it returns the argmax of the logits the
oracle yields for the full consumed sequence, with the generator state
unchanged. -/
theorem splitPromptLoop_argmax (e : ℚ → ℚ) (oracle : List Token → Logits) :
    ∀ (rest : List Token), rest ≠ [] →
      ∀ (consumed : List Token) (t0 : Token) (s : RngState),
        splitPromptLoop e .ArgMax oracle rest consumed t0 s =
          (argmaxIdx (oracle (consumed ++ rest)), s) := by
  intro rest
  induction rest with
  | nil => intro h; exact absurd rfl h
  | cons t ts ih =>
    intro _ consumed t0 s
    rcases ts with _ | ⟨t', ts'⟩
    · simp [splitPromptLoop, sample]
    · rw [splitPromptLoop]
      rw [ih (by simp) (consumed ++ [t]) _ _]
      simp [sample]

/-- Folding the end-of-turn update in a non-chat mode never changes the
history. -/
theorem foldl_nextPrePrompt_fixed (e : ℚ → ℚ) (P : GenParams) (eos : Token)
    (oracle : List Token → Logits) (m : PromptMode) (hm : m ≠ .chat) :
    ∀ (encs : List (List Token)) (init : List Token),
      encs.foldl (fun h enc => nextPrePrompt m h (runTurn e P eos oracle h enc)) init = init := by
  intro encs
  induction encs with
  | nil => intro init; rfl
  | cons enc rest ih =>
    intro init
    rw [List.foldl_cons]
    have hfix : nextPrePrompt m init (runTurn e P eos oracle init enc) = init := by
      cases m with
      | one => rfl
      | interactive => rfl
      | chat => exact absurd rfl hm
    rw [hfix, ih]

/-! ## Claim theorems -/

/-- C8 (confirmed): when the repeat-penalty factor is exactly 1, the
repeat-penalty step short-circuits and the logits handed to the sampler
are identical to the raw logits from the forward call, for every logits
vector and every token history. -/
theorem c8_penalty_one_noop (logits : Logits) (allTokens : List Token) (rln : Nat) :
    penaltyStep 1 logits allTokens rln = logits := by
  simp [penaltyStep]

/-- C9 (confirmed): the driver turn is a pure function of the seed, the
sampling configuration and the logits oracle; two runs observing the
same logits for every consumed sequence produce identical token
sequences. -/
theorem c9_determinism (e : ℚ → ℚ) (P : GenParams) (eos : Token)
    (o1 o2 : List Token → Logits) (history encoded : List Token)
    (h : ∀ l, o1 l = o2 l) :
    runTurn e P eos o1 history encoded = runTurn e P eos o2 history encoded := by
  have ho : o1 = o2 := funext h
  rw [ho]

/-- C9 witness: two runs over the same concrete oracle coincide. -/
theorem c9_determinism_witness :
    runTurn (fun _ => 1) ⟨0, 0, none, none, 1, 64, 3, false, 100⟩ 1
        (fun _ => [0, 5]) [] [3] =
      runTurn (fun _ => 1) ⟨0, 0, none, none, 1, 64, 3, false, 100⟩ 1
        (fun _ => [0, 5]) [] [3] :=
  c9_determinism (fun _ => 1) ⟨0, 0, none, none, 1, 64, 3, false, 100⟩ 1
    (fun _ => [0, 5]) (fun _ => [0, 5]) [] [3] (fun _ => rfl)

/-- C6 (confirmed): in chat mode, starting from the empty pre-prompt
history, after one turn the history is exactly the turn's (possibly
truncated) prompt tokens concatenated with its sampled tokens, and the
next turn's combined token sequence (the line-339 concatenation fed to
the context-window step) is prefixed by exactly that history; in
one-shot and interactive modes the history stays empty across any run. -/
theorem c6_chat_accumulation (e : ℚ → ℚ) (P : GenParams) (eos : Token)
    (oracle : List Token → Logits) (enc1 enc2 : List Token) (encs : List (List Token)) :
    historyAfter e P eos oracle .chat [enc1] =
        (runTurn e P eos oracle [] enc1).promptTokens ++
          (runTurn e P eos oracle [] enc1).allTokens ∧
      historyAfter e P eos oracle .chat [enc1] <+:
        historyAfter e P eos oracle .chat [enc1] ++ enc2 ∧
      historyAfter e P eos oracle .one encs = [] ∧
      historyAfter e P eos oracle .interactive encs = [] := by
  refine ⟨rfl, List.prefix_append _ _, ?_, ?_⟩
  · exact foldl_nextPrePrompt_fixed e P eos oracle .one (by simp) encs []
  · exact foldl_nextPrePrompt_fixed e P eos oracle .interactive (by simp) encs []

/-- C2 (code bug), evaluated at a failing input: with a window of 20, a
margin of 10, a generation budget of 0 and a 21-token combined prompt,
the truncation step keeps the LAST `to_remove = 11` tokens (the slice
start and length are swapped with respect to dropping `to_remove` from
the front), so the guaranteed bound `len(output) + to_generate ≤
maxSeqLen - 10` fails: 11 + 0 > 10. -/
theorem c2_truncation_bound_violated :
    truncatePrompt 20 0 (List.range 21) = (List.range 21).drop 10 ∧
      (truncatePrompt 20 0 (List.range 21)).length + 0 > 20 - 10 := by
  decide

/-- C3 counterexample: with a window of 20 the bound is unachievable for
a budget of 11 (even an empty prompt gives 11 > 10), yet the driver's
context-window step succeeds with the whole sequence instead of
surfacing `ContextOverflow`. -/
theorem c3_counterexample :
    20 - 10 < 11 ∧
      contextWindowStep 20 11 [1, 2, 3] = Except.ok [1, 2, 3] ∧
      contextWindowStep 20 11 [1, 2, 3] ≠ Except.error SpecError.ContextOverflow := by
  refine ⟨by omega, rfl, ?_⟩
  intro h
  exact Except.noConfusion h

/-- C3 (corrected): when the requested generation budget cannot fit even
after maximal truncation (`maxSeqLen - 10 < toSample`), the driver does
not abort and surfaces no error: the context-window step returns the
entire combined sequence unchanged and the turn proceeds. -/
theorem c3_no_overflow_check (M s : Nat) (l : List Token)
    (h10 : 10 ≤ M) (hs : M - 10 < s) :
    contextWindowStep M s l = Except.ok l := by
  unfold contextWindowStep truncatePrompt
  rw [if_pos (by omega)]
  show Except.ok (l.drop (l.length - (l.length + s + 10 - M))) = Except.ok l
  have hz : l.length - (l.length + s + 10 - M) = 0 := by omega
  rw [hz, List.drop_zero]

/-- C3 witness: a concrete unachievable budget on which the step
succeeds with the untouched sequence. -/
theorem c3_no_overflow_check_witness :
    contextWindowStep 30 25 [4, 5] = Except.ok [4, 5] :=
  c3_no_overflow_check 30 25 [4, 5] (by decide) (by decide)

/-- C4 counterexample: with a vocabulary lacking the Falcon marker
`<|endoftext|>`, the end-of-sequence resolution panics (an
`Option::unwrap` on `None` aborts the process); no `UnknownEosToken`
error value is surfaced to the caller. -/
theorem c4_counterexample :
    resolveEosStep [("a", 1)] Which.Falcon3_1b1_58 = StepOutcome.panicked ∧
      resolveEosStep [("a", 1)] Which.Falcon3_1b1_58 ≠
        StepOutcome.err SpecError.UnknownEosToken := by
  refine ⟨rfl, ?_⟩
  intro h
  exact StepOutcome.noConfusion (rfl.trans h : StepOutcome.panicked = _)

/-- C4 (corrected): whenever the model family's designated marker is
absent from the tokenizer vocabulary the driver panics — it never
proceeds and never swallows the condition, but the abort is a process
panic, not an `UnknownEosToken` error returned to the caller. -/
theorem c4_missing_eos_panics (vocab : List (String × Token)) (w : Which)
    (h : lookupVocab vocab (eosMarker w) = none) :
    resolveEosStep vocab w = StepOutcome.panicked := by
  simp [resolveEosStep, h]

/-- C4 witness: a concrete vocabulary missing the Llama marker. -/
theorem c4_missing_eos_panics_witness :
    resolveEosStep [("x", 0)] Which.Llama3_8b1_58 = StepOutcome.panicked :=
  c4_missing_eos_panics [("x", 0)] Which.Llama3_8b1_58 (by decide)

/-- C5 counterexample: the prompt builder is not mode-independent — for
the Llama family, one-shot mode renders the raw text while interactive
mode renders the llama3 chat template. -/
theorem c5_counterexample :
    renderPrompt .one .Llama3_8b1_58 "hi" = "hi" ∧
      renderPrompt .one .Llama3_8b1_58 "hi" ≠
        renderPrompt .interactive .Llama3_8b1_58 "hi" := by
  refine ⟨rfl, ?_⟩
  decide

/-- C5 (corrected): Falcon families get the same fixed wrap
`<|user|>\n{text}\n<|assistant|>` in every mode; the Llama family is
mode-dependent: raw text in one-shot mode, the llama3 chat template in
interactive and chat modes. -/
theorem c5_templating (text : String) :
    (∀ (m : PromptMode) (w : Which), w.is_falcon = true →
        renderPrompt m w text = falconWrap text) ∧
      renderPrompt .one .Llama3_8b1_58 text = text ∧
      renderPrompt .interactive .Llama3_8b1_58 text = llamaChatWrap text ∧
      renderPrompt .chat .Llama3_8b1_58 text = llamaChatWrap text := by
  refine ⟨?_, rfl, rfl, rfl⟩
  intro m w hw
  cases m <;> cases w <;> simp_all [renderPrompt, Which.is_falcon, Which.is_llama]

/-- C5 witness: the Falcon wrap at a concrete mode, family and text,
alongside the Llama one-shot raw rendering. -/
theorem c5_templating_witness :
    renderPrompt .one .Falcon3_1b1_58 "hello" = falconWrap "hello" ∧
      renderPrompt .one .Llama3_8b1_58 "hello" = "hello" :=
  ⟨(c5_templating "hello").1 .one .Falcon3_1b1_58 (by decide),
    (c5_templating "hello").2.1⟩

/-- C1 counterexample: with temperature sampling (`Sampling::All`,
temperature 1), seed 0, a uniform two-entry logits oracle and a
two-token prompt, the batched path samples token 0 while the
split-prompt path samples token 1 — the split path draws once per
prompt token, so its final draw sees an advanced generator state. (The
softmax exponential is instantiated with the constant-1 function; on
all-equal logits every positive exponential yields the same uniform
distribution.) -/
theorem c1_counterexample :
    (promptPhase (fun _ => 1) (buildSampling 1 none none) (fun _ => [0, 0]) false 0 [5, 7]).1 ≠
      (promptPhase (fun _ => 1) (buildSampling 1 none none) (fun _ => [0, 0]) true 0 [5, 7]).1 := by
  norm_num [promptPhase, buildSampling, sample, splitPromptLoop, softmaxProbs, maxLogit,
    categorical, catPick, rngNext, rngUnit]

/-- C1 (corrected): the batched and split-prompt paths produce the same
first sampled token whenever the sampling configuration resolves to
greedy (`temperature ≤ 0`) and the prompt is nonempty; greedy sampling
neither reads nor advances the generator, so the split path's extra
per-token samples cannot diverge. -/
theorem c1_paths_agree_greedy (e : ℚ → ℚ) (oracle : List Token → Logits)
    (seed : RngState) (prompt : List Token) (temp : ℚ) (tk : Option Nat) (tp : Option ℚ)
    (htemp : temp ≤ 0) (hne : prompt ≠ []) :
    (promptPhase e (buildSampling temp tk tp) oracle false seed prompt).1 =
      (promptPhase e (buildSampling temp tk tp) oracle true seed prompt).1 := by
  have hcfg : buildSampling temp tk tp = .ArgMax := by
    unfold buildSampling
    rw [if_pos htemp]
  rw [hcfg]
  show (sample e .ArgMax seed (oracle prompt)).1 =
    (splitPromptLoop e .ArgMax oracle prompt [] 0 seed).1
  rw [splitPromptLoop_argmax e oracle prompt hne [] 0 seed]
  simp [sample]

/-- C1 witness: a concrete greedy configuration on which both paths
yield the same first token. -/
theorem c1_paths_agree_greedy_witness :
    (promptPhase (fun _ => 1) (buildSampling 0 none none) (fun _ => [0, 5]) false 7 [2, 3]).1 =
      (promptPhase (fun _ => 1) (buildSampling 0 none none) (fun _ => [0, 5]) true 7 [2, 3]).1 :=
  c1_paths_agree_greedy (fun _ => 1) (fun _ => [0, 5]) 7 [2, 3] 0 none none
    (by decide) (by decide)

/-- C7 (confirmed): if the loop dynamics force the stop token on the
`n`-th generated step (`1 ≤ n ≤ budget`, nothing earlier equal to it),
or never force it and `n` is the whole budget, the generating loop
halts after exactly `n` generated tokens; and when the stop token was
produced it is the last entry appended to the token history. -/
theorem c7_stop_token_halts (e : ℚ → ℚ) (cfg : Sampling) (penalty : ℚ) (rln : Nat)
    (eos : Token) (oracle : List Token → Logits) (prompt : List Token)
    (budget n : Nat) (a0 : List Token) (r0 : RngState)
    (h1 : 1 ≤ n) (h2 : n ≤ budget)
    (h3 : ∀ i, i < n - 1 → tokAt e cfg penalty rln oracle prompt a0 r0 i ≠ eos)
    (h4 : tokAt e cfg penalty rln oracle prompt a0 r0 (n - 1) = eos ∨ n = budget) :
    (genLoop e cfg penalty rln eos oracle prompt budget a0 r0).length = a0.length + n ∧
      (tokAt e cfg penalty rln oracle prompt a0 r0 (n - 1) = eos →
        (genLoop e cfg penalty rln eos oracle prompt budget a0 r0).getLast? = some eos) := by
  have hrun := genLoop_halt e cfg penalty rln eos oracle prompt n h1 budget a0 r0 h2 h3 h4
  constructor
  · rw [hrun, genStateAt_length]
  · intro heos
    obtain ⟨m, rfl⟩ : ∃ m, n = m + 1 := ⟨n - 1, by omega⟩
    rw [hrun, genStateAt_succ_last, List.getLast?_concat]
    have hm : tokAt e cfg penalty rln oracle prompt a0 r0 m = eos := by simpa using heos
    rw [hm]

/-- C7 witness: a greedy stub forcing stop token 1 on the 5th generated
step under a budget of 50 — the loop halts after exactly 5 tokens and
the stop token is last. -/
theorem c7_stop_token_halts_witness :
    (genLoop (fun _ => 1) Sampling.ArgMax 1 64 1
          (fun l => if 8 ≤ l.length then [(0 : ℚ), 5] else [5, 0]) [9, 9, 9] 50 [7] 0).length =
        [7].length + 5 ∧
      (tokAt (fun _ => 1) Sampling.ArgMax 1 64
          (fun l => if 8 ≤ l.length then [(0 : ℚ), 5] else [5, 0]) [9, 9, 9] [7] 0 (5 - 1) = 1 →
        (genLoop (fun _ => 1) Sampling.ArgMax 1 64 1
            (fun l => if 8 ≤ l.length then [(0 : ℚ), 5] else [5, 0]) [9, 9, 9] 50 [7] 0).getLast? =
          some 1) :=
  c7_stop_token_halts (fun _ => 1) Sampling.ArgMax 1 64 1
    (fun l => if 8 ≤ l.length then [(0 : ℚ), 5] else [5, 0]) [9, 9, 9] 50 5 [7] 0
    (by decide) (by decide) (by decide) (Or.inl (by decide))

/-- The `allTokens` component of a turn, unfolded. -/
theorem runTurn_allTokens (e : ℚ → ℚ) (P : GenParams) (eos : Token)
    (oracle : List Token → Logits) (history encoded : List Token) :
    (runTurn e P eos oracle history encoded).allTokens =
      genLoop e (buildSampling P.temperature P.top_k P.top_p) P.repeat_penalty
        P.repeat_last_n eos oracle
        (truncatePrompt P.maxSeqLen (P.sample_len - 1) (history ++ encoded))
        (P.sample_len - 1)
        [(promptPhase e (buildSampling P.temperature P.top_k P.top_p) oracle P.split_prompt
            P.seed (truncatePrompt P.maxSeqLen (P.sample_len - 1) (history ++ encoded))).1]
        (promptPhase e (buildSampling P.temperature P.top_k P.top_p) oracle P.split_prompt
            P.seed (truncatePrompt P.maxSeqLen (P.sample_len - 1) (history ++ encoded))).2 := rfl

/-- C10 (confirmed): the stop-condition check applies only inside the
generating loop — if the first sampled token (from the prompt phase)
already equals the stop token, the turn still enters the loop: the
token history starts with the stop token and yet at least one further
token is generated whenever the budget is nonzero. -/
theorem c10_first_token_not_checked (e : ℚ → ℚ) (P : GenParams) (eos : Token)
    (oracle : List Token → Logits) (history encoded : List Token)
    (hb : 1 ≤ P.sample_len - 1)
    (hfirst : (promptPhase e (buildSampling P.temperature P.top_k P.top_p) oracle
        P.split_prompt P.seed
        (truncatePrompt P.maxSeqLen (P.sample_len - 1) (history ++ encoded))).1 = eos) :
    (runTurn e P eos oracle history encoded).allTokens.head? = some eos ∧
      2 ≤ (runTurn e P eos oracle history encoded).allTokens.length := by
  rw [runTurn_allTokens]
  constructor
  · obtain ⟨g, hg⟩ := genLoop_append e (buildSampling P.temperature P.top_k P.top_p)
      P.repeat_penalty P.repeat_last_n eos oracle
      (truncatePrompt P.maxSeqLen (P.sample_len - 1) (history ++ encoded))
      (P.sample_len - 1)
      [(promptPhase e (buildSampling P.temperature P.top_k P.top_p) oracle P.split_prompt
          P.seed (truncatePrompt P.maxSeqLen (P.sample_len - 1) (history ++ encoded))).1]
      (promptPhase e (buildSampling P.temperature P.top_k P.top_p) oracle P.split_prompt
          P.seed (truncatePrompt P.maxSeqLen (P.sample_len - 1) (history ++ encoded))).2
    rw [hg, List.singleton_append, List.head?_cons, hfirst]
  · have hlen := genLoop_length_ge e (buildSampling P.temperature P.top_k P.top_p)
      P.repeat_penalty P.repeat_last_n eos oracle
      (truncatePrompt P.maxSeqLen (P.sample_len - 1) (history ++ encoded))
      (P.sample_len - 1) hb
      [(promptPhase e (buildSampling P.temperature P.top_k P.top_p) oracle P.split_prompt
          P.seed (truncatePrompt P.maxSeqLen (P.sample_len - 1) (history ++ encoded))).1]
      (promptPhase e (buildSampling P.temperature P.top_k P.top_p) oracle P.split_prompt
          P.seed (truncatePrompt P.maxSeqLen (P.sample_len - 1) (history ++ encoded))).2
    simpa using hlen

/-- C10 witness: a greedy stub whose first sampled token is the stop
token — the loop still runs and the history reaches length ≥ 2. -/
theorem c10_first_token_not_checked_witness :
    (runTurn (fun _ => 1) ⟨0, 0, none, none, 1, 64, 3, false, 100⟩ 1
          (fun _ => [0, 5]) [] [3]).allTokens.head? = some 1 ∧
      2 ≤ (runTurn (fun _ => 1) ⟨0, 0, none, none, 1, 64, 3, false, 100⟩ 1
          (fun _ => [0, 5]) [] [3]).allTokens.length :=
  c10_first_token_not_checked (fun _ => 1) ⟨0, 0, none, none, 1, 64, 3, false, 100⟩ 1
    (fun _ => [0, 5]) [] [3] (by decide) (by decide)

end QuantizedBitnet
